import Mathlib

/-!
Verification of the miningsim log-to-statistics pipeline
(`scripts/parsing.py`, `scripts/statistics.py`).

The Python code is shallowly embedded:
* the mutable `SimulationData` accumulator becomes an immutable structure
  threaded through the event handlers;
* Python `dict`s (insertion-ordered, unique keys) become association lists
  whose update-in-place / append-at-end behaviour mirrors
  `setdefault(k, 0)` followed by `+=`;
* the two `re.match` patterns become hand-rolled matchers over `List Char`
  reproducing `re.match` semantics: anchored at the start of the line, not
  at its end, with greedy (longest-first) resolution of the `(.+\.)` group
  and maximal-munch digit/alpha groups (digits are modelled as ASCII);
* code that can raise (`ZeroDivisionError`, `TypeError` on `None - int`,
  `KeyError`, `SimulationLogParsingException`) returns `Except PyError`;
* Python float division of two ints is modelled as exact division in `ℚ`.
-/

inductive PyError where
  | logFormat (msg : String)
  | stopIteration
  | zeroDivision
  | typeError
  | keyError
deriving DecidableEq

def MESSAGE_INVALID_LOG_FORMAT : String := "Invalid log format"

/-- `d.setdefault(k, 0); d[k] += v` on a Python dict modelled as an
insertion-ordered association list: update the entry in place if the key is
present, otherwise append a fresh entry at the end. -/
def dictAdd : List (Int × Int) → Int → Int → List (Int × Int)
  | [], k, v => [(k, v)]
  | (k', v') :: rest, k, v =>
    if k' = k then (k', v' + v) :: rest else (k', v') :: dictAdd rest k v

/-- `d.get(k)`: the value stored under `k`, if any. -/
def dictGet? : List (Int × Int) → Int → Option Int
  | [], _ => none
  | (k', v') :: rest, k => if k' = k then some v' else dictGet? rest k

/-- `d[k]`: raises `KeyError` when the key is absent. -/
def dictGetE (d : List (Int × Int)) (k : Int) : Except PyError Int :=
  match dictGet? d k with
  | some v => Except.ok v
  | none => Except.error PyError.keyError

/-- `d.values()` in insertion order. -/
def dictValues (d : List (Int × Int)) : List Int := d.map (fun kv => kv.2)

/-- The `SimulationData` accumulator of `parsing.py`.  The two timestamp
fields start as Python `None`, hence `Option Int`. -/
structure SimulationData where
  timestamp_begin : Option Int
  timestamp_last_event : Option Int
  blocks_mined_cnt : Int
  workers_resources_mined : List (Int × Int)
  workers_work_duration : List (Int × Int)
  ferry_wait_durations : List Int
  lorries_load_duration : List Int
  lorries_transport_duration : List (Int × Int)
deriving DecidableEq

/-- `SimulationData.__init__`: the empty accumulator. -/
def SimulationData.empty : SimulationData :=
  { timestamp_begin := none
    timestamp_last_event := none
    blocks_mined_cnt := 0
    workers_resources_mined := []
    workers_work_duration := []
    ferry_wait_durations := []
    lorries_load_duration := []
    lorries_transport_duration := [] }

def SimulationData.set_timestamp_begin (d : SimulationData) (timestamp : Int) :
    SimulationData :=
  { d with timestamp_begin := some timestamp }

def SimulationData.update_timestamp_last_event (d : SimulationData)
    (timestamp : Int) : SimulationData :=
  { d with timestamp_last_event := some timestamp }

def SimulationData.inc_blocks_mined_cnt (d : SimulationData) : SimulationData :=
  { d with blocks_mined_cnt := d.blocks_mined_cnt + 1 }

def SimulationData.inc_resources_mined_cnt (d : SimulationData)
    (worker_id : Int) : SimulationData :=
  { d with workers_resources_mined := dictAdd d.workers_resources_mined worker_id 1 }

def SimulationData.increase_worker_work_duration (d : SimulationData)
    (worker_id : Int) (duration : Int) : SimulationData :=
  { d with workers_work_duration := dictAdd d.workers_work_duration worker_id duration }

def SimulationData.register_ferry_wait_duration (d : SimulationData)
    (duration : Int) : SimulationData :=
  { d with ferry_wait_durations := d.ferry_wait_durations ++ [duration] }

def SimulationData.register_lorry_load_duration (d : SimulationData)
    (duration : Int) : SimulationData :=
  { d with lorries_load_duration := d.lorries_load_duration ++ [duration] }

def SimulationData.increase_lorry_transport_duration (d : SimulationData)
    (lorry_id : Int) (duration : Int) : SimulationData :=
  { d with lorries_transport_duration := dictAdd d.lorries_transport_duration lorry_id duration }

/-- The five captured groups of a general log line, after the `int(...)`
conversions done by `parse_general_log`. -/
structure GeneralLog where
  timestamp : Int
  role : String
  threadId : Int
  message : String
  duration : Int
deriving DecidableEq

/-- `SimulationLogParser.handle_log`: dispatch one general event into the
accumulator, then unconditionally update the last-event timestamp. -/
def handle_log (d : SimulationData) (e : GeneralLog) : SimulationData :=
  let d' :=
    if e.role = "Worker" then
      if e.message = "Finished mining a resource." then
        (d.inc_resources_mined_cnt e.threadId).increase_worker_work_duration
          e.threadId e.duration
      else if e.message = "Finished mining a block of resources." then
        d.inc_blocks_mined_cnt
      else d
    else if e.role = "Lorry" then
      if e.message = "Lorry has been filled." then
        d.register_lorry_load_duration e.duration
      else if e.message = "Lorry has arrived at the ferry." ∨
          e.message = "Lorry has arrived at the destination." then
        d.increase_lorry_transport_duration e.threadId e.duration
      else d
    else if e.role = "Ferry" then
      if e.message = "Ferry has departed from the origin shore." then
        d.register_ferry_wait_duration e.duration
      else d
    else d
  d'.update_timestamp_last_event e.timestamp

/-- `[a-zA-Z]` of the general pattern. -/
def isAsciiAlpha (c : Char) : Bool :=
  ('a' ≤ c && c ≤ 'z') || ('A' ≤ c && c ≤ 'Z')

/-- `int(...)` on a string of decimal digits. -/
def digitsToNat (ds : List Char) : Nat :=
  ds.foldl (fun n c => 10 * n + (c.toNat - '0'.toNat)) 0

/-- Maximal munch of a one-or-more character class (`\d+`, `[a-zA-Z]+`):
the longest run of characters satisfying `p`, which must be non-empty,
together with the rest of the input. -/
def munch (p : Char → Bool) (cs : List Char) : Option (List Char × List Char) :=
  if (cs.takeWhile p).isEmpty then none
  else some (cs.takeWhile p, cs.dropWhile p)

/-- A literal piece of the pattern: consume it or fail. -/
def expect (lit : List Char) (cs : List Char) : Option (List Char) :=
  if lit.isPrefixOf cs then some (cs.drop lit.length) else none

/-- `(\d+)` followed by conversion to a number. -/
def munchNat (cs : List Char) : Option (Nat × List Char) :=
  (munch Char.isDigit cs).map (fun pr => (digitsToNat pr.1, pr.2))

/-- `(-?\d+)`: an optional minus sign followed by one or more digits. -/
def munchInt (cs : List Char) : Option (Int × List Char) :=
  if cs.head? = some '-' then
    (munchNat cs.tail).map (fun pr => (-(Int.ofNat pr.1), pr.2))
  else (munchNat cs).map (fun pr => (Int.ofNat pr.1, pr.2))

/-- All ways to cut a list in two, ordered by increasing length of the
first part. -/
def splitsAll : List Char → List (List Char × List Char)
  | [] => [([], [])]
  | c :: rest => ([], c :: rest) :: (splitsAll rest).map (fun pr => (c :: pr.1, pr.2))

/-- The `;duration=(\d+)` tail of the general pattern; anything may follow
the digits (the pattern is not end-anchored). -/
def durTail (q : List Char) : Option Int :=
  match expect (String.toList ";duration=") q with
  | none => none
  | some r => (munchNat r).map (fun pr => (Int.ofNat pr.1, pr.2)) |>.map (fun pr => pr.1)

/-- Whether cutting the remaining input into `(p, q)` is a way the regex
engine can match `(.+\.);duration=(\d+)` with group 4 = `p`: `p` is the
`.+` part (non-empty, no newline) followed by the literal dot, and `q`
carries the duration tail. -/
def validSplit (p q : List Char) : Bool :=
  decide (2 ≤ p.length) && (p.getLast? == some '.') &&
    p.all (fun c => !(c == '\n')) && (durTail q).isSome

/-- Greedy resolution of `(.+\.);duration=(\d+)`: among all cuts of the
input, the one giving the longest group 4, as a backtracking regex engine
finds (it shrinks `.+` from the right until the rest of the pattern
matches). -/
def msgSplit (cs : List Char) : Option (List Char × List Char) :=
  ((splitsAll cs).filter (fun pr => validSplit pr.1 pr.2)).getLast?

/-- `re.match` of `FOREMAN_LOG_PATTERN =
"(\d+) Foreman -1 Finished analysing the input file.;blocks=(\d+),resources=(\d+)"`
returning the three groups after `int(...)` conversion.  The dot after
"file" is the `.` metacharacter (any character but newline); matching is
anchored at the start only, trailing input is ignored. -/
def matchForeman (cs : List Char) : Option (Int × Int × Int) :=
  match munchNat cs with
  | none => none
  | some (ts, r1) =>
    match expect (String.toList " Foreman -1 Finished analysing the input file") r1 with
    | none => none
    | some r2 =>
      match r2 with
      | [] => none
      | c :: r3 =>
        if c = '\n' then none else
        match expect (String.toList ";blocks=") r3 with
        | none => none
        | some r4 =>
          match munchNat r4 with
          | none => none
          | some (b, r5) =>
            match expect (String.toList ",resources=") r5 with
            | none => none
            | some r6 =>
              match munchNat r6 with
              | none => none
              | some (r, _) => some (Int.ofNat ts, Int.ofNat b, Int.ofNat r)

/-- `re.match` of `GENERAL_LOG_PATTERN =
"(\d+) ([a-zA-Z]+) (-?\d+) (.+\.);duration=(\d+)"` returning the five
groups after the conversions done by `parse_general_log`.  Anchored at the
start of the line only; the `(.+\.)` group is greedy. -/
def matchGeneral (cs : List Char) : Option GeneralLog :=
  match munchNat cs with
  | none => none
  | some (ts, r1) =>
    match expect [' '] r1 with
    | none => none
    | some r2 =>
      match munch isAsciiAlpha r2 with
      | none => none
      | some (role, r3) =>
        match expect [' '] r3 with
        | none => none
        | some r4 =>
          match munchInt r4 with
          | none => none
          | some (tid, r5) =>
            match expect [' '] r5 with
            | none => none
            | some r6 =>
              match msgSplit r6 with
              | none => none
              | some (p, q) =>
                match durTail q with
                | none => none
                | some dur =>
                  some { timestamp := Int.ofNat ts, role := String.mk role,
                         threadId := tid, message := String.mk p, duration := dur }

/-- `parse_foreman_log`: match the header line or raise, then seed
`timestamp_begin`. -/
def parse_foreman_log (d : SimulationData) (log : List Char) :
    Except PyError SimulationData :=
  match matchForeman log with
  | none => Except.error (PyError.logFormat MESSAGE_INVALID_LOG_FORMAT)
  | some (timestamp, _, _) => Except.ok (d.set_timestamp_begin timestamp)

/-- `parse_general_log`: match a general line or raise, then dispatch via
`handle_log`. -/
def parse_general_log (d : SimulationData) (log : List Char) :
    Except PyError SimulationData :=
  match matchGeneral log with
  | none => Except.error (PyError.logFormat MESSAGE_INVALID_LOG_FORMAT)
  | some e => Except.ok (handle_log d e)

/-- The `for line in lines: self.parse_general_log(line)` loop.  The first
component is the accumulator the parser object holds when the loop stops:
on failure it keeps every mutation committed by the earlier lines. -/
def parse_general_logs (d : SimulationData) :
    List (List Char) → SimulationData × Option PyError
  | [] => (d, none)
  | l :: ls =>
    match matchGeneral l with
    | none => (d, some (PyError.logFormat MESSAGE_INVALID_LOG_FORMAT))
    | some e => parse_general_logs (handle_log d e) ls

/-- `SimulationLogParser.parse`: header line first (`next(lines)` raises
`StopIteration` on an empty file), then every remaining line. -/
def parse (lines : List (List Char)) : Except PyError SimulationData :=
  match lines with
  | [] => Except.error PyError.stopIteration
  | first :: rest =>
    match parse_foreman_log SimulationData.empty first with
    | Except.error e => Except.error e
    | Except.ok d =>
      match parse_general_logs d rest with
      | (d', none) => Except.ok d'
      | (_, some e) => Except.error e

/-- `WorkerStatistics` of `statistics.py`. -/
structure WorkerStatistics where
  WORKER_ID : Int
  RESOURCES_MINED_CNT : Int
  WORK_DURATION : Int
deriving DecidableEq

/-- `LorryStatistics` of `statistics.py`; `TRANSPORT_TIME` is an int plus a
float average, hence `ℚ`. -/
structure LorryStatistics where
  LORRY_ID : Int
  LOAD_TIME : Int
  TRANSPORT_TIME : ℚ
deriving DecidableEq

/-- `SimulationStatistics` of `statistics.py`; the three averages are
Python float divisions of ints, modelled exactly in `ℚ`. -/
structure SimulationStatistics where
  DURATION : Int
  BLOCKS_MINED_CNT : Int
  AVG_BLOCK_MINE_DURATION : ℚ
  RESOURCES_MINED_CNT : Int
  AVG_RESOURCE_MINE_DURATION : ℚ
  FERRY_TRIPS_CNT : Int
  AVG_FERRY_WAIT_DURATION : ℚ
  WORKERS_STATISTICS : List WorkerStatistics
  LORRIES_STATISTICS : List LorryStatistics
deriving DecidableEq

/-- Stable insertion into a sorted list: the new element goes before the
first strictly larger key, as Python's stable `sorted` orders it. -/
def insertByKey (key : α → Int) (x : α) : List α → List α
  | [] => [x]
  | y :: ys => if key x ≤ key y then x :: y :: ys else y :: insertByKey key x ys

/-- `sorted(rows, key=...)`: stable sort by an integer key. -/
def sortByKey (key : α → Int) : List α → List α
  | [] => []
  | x :: xs => insertByKey key x (sortByKey key xs)

/-- Python `a - b` where either side may be `None`: `None` in an int
subtraction raises `TypeError`. -/
def pySub : Option Int → Option Int → Except PyError Int
  | some a, some b => Except.ok (a - b)
  | _, _ => Except.error PyError.typeError

/-- Python `a / b` on ints: float (here exact rational) division, raising
`ZeroDivisionError` when `b == 0`. -/
def pyDiv (a b : Int) : Except PyError ℚ :=
  if b = 0 then Except.error PyError.zeroDivision
  else Except.ok ((a : ℚ) / (b : ℚ))

/-- The `for worker_id in data.workers_resources_mined.keys()` comprehension
of `make_workers_statistics`: both dict subscripts can in principle raise
`KeyError`. -/
def workerRows (data : SimulationData) :
    List Int → Except PyError (List WorkerStatistics)
  | [] => Except.ok []
  | k :: ks =>
    match dictGetE data.workers_resources_mined k with
    | Except.error e => Except.error e
    | Except.ok rc =>
      match dictGetE data.workers_work_duration k with
      | Except.error e => Except.error e
      | Except.ok wd =>
        match workerRows data ks with
        | Except.error e => Except.error e
        | Except.ok rest => Except.ok ({ WORKER_ID := k, RESOURCES_MINED_CNT := rc, WORK_DURATION := wd } :: rest)

/-- `make_workers_statistics`: one row per key of `workers_resources_mined`,
sorted by worker id. -/
def make_workers_statistics (data : SimulationData) :
    Except PyError (List WorkerStatistics) :=
  match workerRows data (data.workers_resources_mined.map (fun kv => kv.1)) with
  | Except.error e => Except.error e
  | Except.ok rows => Except.ok (sortByKey (fun ws => ws.WORKER_ID) rows)

/-- The `enumerate(data.lorries_load_duration)` comprehension of
`make_lorries_statistics`, position `i` onwards: the 0-based position is
the lorry id, and `lorries_transport_duration[lorry_id]` raises `KeyError`
when that id never had a transport event. -/
def lorryRows (dict : List (Int × Int)) (avg : ℚ) :
    Nat → List Int → Except PyError (List LorryStatistics)
  | _, [] => Except.ok []
  | i, ld :: lds =>
    match dictGetE dict (Int.ofNat i) with
    | Except.error e => Except.error e
    | Except.ok td =>
      match lorryRows dict avg (i + 1) lds with
      | Except.error e => Except.error e
      | Except.ok rest =>
        Except.ok ({ LORRY_ID := Int.ofNat i, LOAD_TIME := ld, TRANSPORT_TIME := (td : ℚ) + avg } :: rest)

/-- `make_lorries_statistics`: one row per index of
`lorries_load_duration`, sorted by lorry id. -/
def make_lorries_statistics (data : SimulationData) (avg_ferry_wait_duration : ℚ) :
    Except PyError (List LorryStatistics) :=
  match lorryRows data.lorries_transport_duration avg_ferry_wait_duration 0
      data.lorries_load_duration with
  | Except.error e => Except.error e
  | Except.ok rows => Except.ok (sortByKey (fun ls => ls.LORRY_ID) rows)

/-- `make_simulation_statistics`: the derivation steps in source order,
each of which can raise (`TypeError` on an unset timestamp,
`ZeroDivisionError` on a zero count, `KeyError` in the per-entity steps). -/
def make_simulation_statistics (data : SimulationData) :
    Except PyError SimulationStatistics :=
  match pySub data.timestamp_last_event data.timestamp_begin with
  | Except.error e => Except.error e
  | Except.ok duration =>
    let sum_workers_work_duration := (dictValues data.workers_work_duration).sum
    match pyDiv sum_workers_work_duration data.blocks_mined_cnt with
    | Except.error e => Except.error e
    | Except.ok avg_block_mine_duration =>
      let resources_mined_cnt := (dictValues data.workers_resources_mined).sum
      match pyDiv sum_workers_work_duration resources_mined_cnt with
      | Except.error e => Except.error e
      | Except.ok avg_resource_mine_duration =>
        let ferry_trips_cnt := (data.ferry_wait_durations.length : Int)
        match pyDiv data.ferry_wait_durations.sum ferry_trips_cnt with
        | Except.error e => Except.error e
        | Except.ok avg_ferry_wait_duration =>
          match make_workers_statistics data with
          | Except.error e => Except.error e
          | Except.ok workers_statistics =>
            match make_lorries_statistics data avg_ferry_wait_duration with
            | Except.error e => Except.error e
            | Except.ok lorries_statistics =>
              Except.ok
                { DURATION := duration
                  BLOCKS_MINED_CNT := data.blocks_mined_cnt
                  AVG_BLOCK_MINE_DURATION := avg_block_mine_duration
                  RESOURCES_MINED_CNT := resources_mined_cnt
                  AVG_RESOURCE_MINE_DURATION := avg_resource_mine_duration
                  FERRY_TRIPS_CNT := ferry_trips_cnt
                  AVG_FERRY_WAIT_DURATION := avg_ferry_wait_duration
                  WORKERS_STATISTICS := workers_statistics
                  LORRIES_STATISTICS := lorries_statistics }

/-- The log-to-statistics pipeline as `app.main` runs it: reconstruct the
accumulator from the lines, then derive the statistics snapshot. -/
def runPipeline (lines : List (List Char)) : Except PyError SimulationStatistics :=
  match parse lines with
  | Except.error e => Except.error e
  | Except.ok data => make_simulation_statistics data

/-- The general events with role `Worker`, message
`"Finished mining a resource."` and the given worker id: exactly the events
that feed the two per-worker mappings. -/
def isResourceEventOf (id : Int) (e : GeneralLog) : Bool :=
  e.role == "Worker" && e.message == "Finished mining a resource." && e.threadId == id

/-- The general events with role `Ferry` and message
`"Ferry has departed from the origin shore."`: exactly the events appended
to `ferry_wait_durations`. -/
def isFerryDeparture (e : GeneralLog) : Bool :=
  e.role == "Ferry" && e.message == "Ferry has departed from the origin shore."

theorem dictGet?_dictAdd_same (d : List (Int × Int)) (k v : Int) :
    dictGet? (dictAdd d k v) k = some ((dictGet? d k).getD 0 + v) := by
  induction d with
  | nil => simp [dictAdd, dictGet?]
  | cons kv rest ih =>
    obtain ⟨k', v'⟩ := kv
    by_cases h : k' = k
    · subst h
      simp [dictAdd, dictGet?]
    · simp [dictAdd, dictGet?, h, ih]

theorem dictGet?_dictAdd_ne (d : List (Int × Int)) (k v k' : Int)
    (h : k' ≠ k) : dictGet? (dictAdd d k v) k' = dictGet? d k' := by
  induction d with
  | nil => simp [dictAdd, dictGet?, Ne.symm h]
  | cons kv rest ih =>
    obtain ⟨a, b⟩ := kv
    by_cases ha : a = k
    · subst ha
      simp [dictAdd, dictGet?, Ne.symm h]
    · simp [dictAdd, dictGet?, ha, ih]

theorem handle_log_wrm (d : SimulationData) (e : GeneralLog) :
    (handle_log d e).workers_resources_mined =
      if e.role = "Worker" ∧ e.message = "Finished mining a resource." then
        dictAdd d.workers_resources_mined e.threadId 1
      else d.workers_resources_mined := by
  unfold handle_log SimulationData.update_timestamp_last_event
    SimulationData.inc_resources_mined_cnt SimulationData.increase_worker_work_duration
    SimulationData.inc_blocks_mined_cnt SimulationData.register_lorry_load_duration
    SimulationData.increase_lorry_transport_duration SimulationData.register_ferry_wait_duration
  split_ifs <;> simp_all

theorem handle_log_wwd (d : SimulationData) (e : GeneralLog) :
    (handle_log d e).workers_work_duration =
      if e.role = "Worker" ∧ e.message = "Finished mining a resource." then
        dictAdd d.workers_work_duration e.threadId e.duration
      else d.workers_work_duration := by
  unfold handle_log SimulationData.update_timestamp_last_event
    SimulationData.inc_resources_mined_cnt SimulationData.increase_worker_work_duration
    SimulationData.inc_blocks_mined_cnt SimulationData.register_lorry_load_duration
    SimulationData.increase_lorry_transport_duration SimulationData.register_ferry_wait_duration
  split_ifs <;> simp_all

/-- The number of resource-mining events of one worker in an event list. -/
def resourceCount (es : List GeneralLog) (id : Int) : Int :=
  ((es.filter (isResourceEventOf id)).length : Int)

/-- The summed duration of the resource-mining events of one worker. -/
def resourceDurSum (es : List GeneralLog) (id : Int) : Int :=
  ((es.filter (isResourceEventOf id)).map GeneralLog.duration).sum

theorem resourceDurSum_eq_zero {es : List GeneralLog} {id : Int}
    (h : resourceCount es id = 0) : resourceDurSum es id = 0 := by
  unfold resourceCount at h
  unfold resourceDurSum
  have hnil : es.filter (isResourceEventOf id) = [] :=
    List.length_eq_zero.mp (by exact_mod_cast h)
  rw [hnil]
  rfl

theorem isResourceEventOf_false_of_not_wm {id : Int} {e : GeneralLog}
    (h : ¬(e.role = "Worker" ∧ e.message = "Finished mining a resource.")) :
    isResourceEventOf id e = false := by
  rcases not_and_or.mp h with h' | h' <;> simp [isResourceEventOf, h']

theorem resourceCount_cons_true {es : List GeneralLog} {id : Int} {e : GeneralLog}
    (h : isResourceEventOf id e = true) :
    resourceCount (e :: es) id = resourceCount es id + 1 := by
  simp [resourceCount, List.filter_cons, h]

theorem resourceCount_cons_false {es : List GeneralLog} {id : Int} {e : GeneralLog}
    (h : isResourceEventOf id e = false) :
    resourceCount (e :: es) id = resourceCount es id := by
  simp [resourceCount, List.filter_cons, h]

theorem foldl_wrm (es : List GeneralLog) (d : SimulationData) (id : Int) :
    dictGet? (es.foldl handle_log d).workers_resources_mined id =
      if resourceCount es id = 0 then dictGet? d.workers_resources_mined id
      else some ((dictGet? d.workers_resources_mined id).getD 0 + resourceCount es id) := by
  induction es generalizing d with
  | nil => simp [resourceCount]
  | cons e es ih =>
    rw [List.foldl_cons, ih]
    by_cases hwm : e.role = "Worker" ∧ e.message = "Finished mining a resource."
    · rw [handle_log_wrm, if_pos hwm]
      by_cases hid : e.threadId = id
      · have hev : isResourceEventOf id e = true := by
          simp [isResourceEventOf, hwm.1, hwm.2, hid]
        rw [resourceCount_cons_true hev, hid, dictGet?_dictAdd_same]
        have hge : (0 : Int) ≤ resourceCount es id := by
          unfold resourceCount
          positivity
        have hne : resourceCount es id + 1 ≠ 0 := by omega
        rw [if_neg hne]
        by_cases h1 : resourceCount es id = 0
        · rw [if_pos h1, h1]
          norm_num
        · rw [if_neg h1]
          simp only [Option.getD_some, Option.some.injEq]
          omega
      · have hev : isResourceEventOf id e = false := by
          simp [isResourceEventOf, hid]
        rw [resourceCount_cons_false hev,
          dictGet?_dictAdd_ne _ _ _ _ (Ne.symm hid)]
    · rw [handle_log_wrm, if_neg hwm,
        resourceCount_cons_false (isResourceEventOf_false_of_not_wm hwm)]

theorem foldl_wwd (es : List GeneralLog) (d : SimulationData) (id : Int) :
    dictGet? (es.foldl handle_log d).workers_work_duration id =
      if resourceCount es id = 0 then dictGet? d.workers_work_duration id
      else some ((dictGet? d.workers_work_duration id).getD 0 + resourceDurSum es id) := by
  induction es generalizing d with
  | nil => simp [resourceCount]
  | cons e es ih =>
    rw [List.foldl_cons, ih]
    by_cases hwm : e.role = "Worker" ∧ e.message = "Finished mining a resource."
    · rw [handle_log_wwd, if_pos hwm]
      by_cases hid : e.threadId = id
      · have hev : isResourceEventOf id e = true := by
          simp [isResourceEventOf, hwm.1, hwm.2, hid]
        have hsum : resourceDurSum (e :: es) id = e.duration + resourceDurSum es id := by
          simp [resourceDurSum, List.filter_cons, hev]
        rw [resourceCount_cons_true hev, hid, dictGet?_dictAdd_same, hsum]
        have hge : (0 : Int) ≤ resourceCount es id := by
          unfold resourceCount
          positivity
        have hne : resourceCount es id + 1 ≠ 0 := by omega
        rw [if_neg hne]
        by_cases h1 : resourceCount es id = 0
        · rw [if_pos h1, resourceDurSum_eq_zero h1]
          norm_num
        · rw [if_neg h1]
          simp only [Option.getD_some, Option.some.injEq]
          omega
      · have hev : isResourceEventOf id e = false := by
          simp [isResourceEventOf, hid]
        have hsum : resourceDurSum (e :: es) id = resourceDurSum es id := by
          simp [resourceDurSum, List.filter_cons, hev]
        rw [resourceCount_cons_false hev, hsum,
          dictGet?_dictAdd_ne _ _ _ _ (Ne.symm hid)]
    · have hev : isResourceEventOf id e = false := isResourceEventOf_false_of_not_wm hwm
      have hsum : resourceDurSum (e :: es) id = resourceDurSum es id := by
        simp [resourceDurSum, List.filter_cons, hev]
      rw [handle_log_wwd, if_neg hwm, resourceCount_cons_false hev, hsum]

theorem handle_log_ferry (d : SimulationData) (e : GeneralLog) :
    (handle_log d e).ferry_wait_durations =
      if isFerryDeparture e then d.ferry_wait_durations ++ [e.duration]
      else d.ferry_wait_durations := by
  unfold handle_log isFerryDeparture SimulationData.update_timestamp_last_event
    SimulationData.inc_resources_mined_cnt SimulationData.increase_worker_work_duration
    SimulationData.inc_blocks_mined_cnt SimulationData.register_lorry_load_duration
    SimulationData.increase_lorry_transport_duration SimulationData.register_ferry_wait_duration
  split_ifs <;> simp_all

theorem foldl_ferry (es : List GeneralLog) (d : SimulationData) :
    (es.foldl handle_log d).ferry_wait_durations =
      d.ferry_wait_durations ++ (es.filter isFerryDeparture).map GeneralLog.duration := by
  induction es generalizing d with
  | nil => simp
  | cons e es ih =>
    rw [List.foldl_cons, ih, handle_log_ferry]
    by_cases hf : isFerryDeparture e <;> simp [hf, List.filter_cons]

/-- Claim C2: after folding any sequence of handled general events over the
post-header accumulator, the `workers_resources_mined` entry of a worker id
is exactly the number of `Worker`/`"Finished mining a resource."` events
with that id (absent when there are none), and the
`workers_work_duration` entry is the sum of the durations of exactly those
events; no other event kind touches either mapping. -/
theorem C2_worker_mappings_count_and_sum (t : Int) (es : List GeneralLog) (id : Int) :
    dictGet? ((es.foldl handle_log
        (SimulationData.empty.set_timestamp_begin t)).workers_resources_mined) id =
      (if resourceCount es id = 0 then none else some (resourceCount es id)) ∧
    dictGet? ((es.foldl handle_log
        (SimulationData.empty.set_timestamp_begin t)).workers_work_duration) id =
      (if resourceCount es id = 0 then none else some (resourceDurSum es id)) := by
  constructor
  · rw [foldl_wrm]
    simp [SimulationData.empty, SimulationData.set_timestamp_begin, dictGet?]
  · rw [foldl_wwd]
    simp [SimulationData.empty, SimulationData.set_timestamp_begin, dictGet?]

/-- Claim C7: in every accumulator state reachable from the post-header
state by handling general events, the key sets of `workers_work_duration`
and `workers_resources_mined` coincide: a worker id has an entry in one
mapping exactly when it has one in the other. -/
theorem C7_worker_key_sets_coincide (t : Int) (es : List GeneralLog) (id : Int) :
    (dictGet? ((es.foldl handle_log
        (SimulationData.empty.set_timestamp_begin t)).workers_resources_mined) id).isSome ↔
    (dictGet? ((es.foldl handle_log
        (SimulationData.empty.set_timestamp_begin t)).workers_work_duration) id).isSome := by
  rw [foldl_wrm, foldl_wwd]
  simp only [SimulationData.empty, SimulationData.set_timestamp_begin, dictGet?]
  split_ifs <;> simp

/-- Claim C8: handling a `Worker`/`"Finished mining a block of resources."`
event increments `blocks_mined_cnt` by one, overwrites
`timestamp_last_event` with the event's timestamp, and leaves every other
accumulator field unchanged. -/
theorem C8_block_event_frame (d : SimulationData) (e : GeneralLog)
    (hrole : e.role = "Worker")
    (hmsg : e.message = "Finished mining a block of resources.") :
    handle_log d e =
      { d with blocks_mined_cnt := d.blocks_mined_cnt + 1,
               timestamp_last_event := some e.timestamp } := by
  have hne : ("Finished mining a block of resources." : String) ≠
      "Finished mining a resource." := by decide
  simp [handle_log, SimulationData.inc_blocks_mined_cnt,
    SimulationData.update_timestamp_last_event, hrole, hmsg, hne]

/-- Claim C8, witness: a concrete block-mining event on the empty
accumulator. -/
theorem C8_block_event_frame_witness :
    handle_log SimulationData.empty
        { timestamp := 7, role := "Worker", threadId := 3,
          message := "Finished mining a block of resources.", duration := 2 } =
      { SimulationData.empty with
          blocks_mined_cnt := SimulationData.empty.blocks_mined_cnt + 1,
          timestamp_last_event := some 7 } :=
  C8_block_event_frame SimulationData.empty
    { timestamp := 7, role := "Worker", threadId := 3,
      message := "Finished mining a block of resources.", duration := 2 } rfl rfl

/-- Claim C6: only `Ferry`/`"Ferry has departed from the origin shore."`
events append (in log order) to `ferry_wait_durations`, and a successful
derivation sets `FERRY_TRIPS_CNT` to the length of that sequence and
`AVG_FERRY_WAIT_DURATION` to its sum divided (exact division) by that
length. -/
theorem C6_ferry_waits_and_average :
    (∀ (t : Int) (es : List GeneralLog),
      (es.foldl handle_log
          (SimulationData.empty.set_timestamp_begin t)).ferry_wait_durations =
        (es.filter isFerryDeparture).map GeneralLog.duration) ∧
    (∀ (d : SimulationData) (s : SimulationStatistics),
      make_simulation_statistics d = Except.ok s →
        s.FERRY_TRIPS_CNT = (d.ferry_wait_durations.length : Int) ∧
        s.AVG_FERRY_WAIT_DURATION =
          (d.ferry_wait_durations.sum : ℚ) / ((d.ferry_wait_durations.length : Int) : ℚ)) := by
  constructor
  · intro t es
    rw [foldl_ferry]
    simp [SimulationData.empty, SimulationData.set_timestamp_begin]
  · intro d s h
    simp only [make_simulation_statistics] at h
    split at h
    next => exact Except.noConfusion h
    next duration hdur =>
      split at h
      next => exact Except.noConfusion h
      next avgb havgb =>
        split at h
        next => exact Except.noConfusion h
        next avgr havgr =>
          split at h
          next => exact Except.noConfusion h
          next avgf havgf =>
            split at h
            next => exact Except.noConfusion h
            next ws hws =>
              split at h
              next => exact Except.noConfusion h
              next ls hls =>
                cases h
                simp only [pyDiv] at havgf
                split at havgf
                next => exact Except.noConfusion havgf
                next hlen =>
                  cases havgf
                  exact ⟨rfl, rfl⟩

/-- A concrete accumulator with one ferry wait of 5, used to instantiate
the derivation claims. -/
def ferryExampleData : SimulationData :=
  { timestamp_begin := some 0, timestamp_last_event := some 30,
    blocks_mined_cnt := 1, workers_resources_mined := [(0, 1)],
    workers_work_duration := [(0, 5)], ferry_wait_durations := [5],
    lorries_load_duration := [], lorries_transport_duration := [] }

/-- The statistics snapshot the deriver produces on `ferryExampleData`. -/
def ferryExampleStats : SimulationStatistics :=
  { DURATION := 30, BLOCKS_MINED_CNT := 1, AVG_BLOCK_MINE_DURATION := 5,
    RESOURCES_MINED_CNT := 1, AVG_RESOURCE_MINE_DURATION := 5,
    FERRY_TRIPS_CNT := 1, AVG_FERRY_WAIT_DURATION := 5,
    WORKERS_STATISTICS := [{ WORKER_ID := 0, RESOURCES_MINED_CNT := 1, WORK_DURATION := 5 }],
    LORRIES_STATISTICS := [] }

theorem make_simulation_statistics_ferryExample :
    make_simulation_statistics ferryExampleData = Except.ok ferryExampleStats := by
  norm_num [make_simulation_statistics, pySub, pyDiv, dictValues,
    make_workers_statistics, workerRows, dictGetE, dictGet?,
    make_lorries_statistics, lorryRows, sortByKey, insertByKey,
    ferryExampleData, ferryExampleStats]

/-- Claim C6, witness: the second conjunct discharged on a concrete
accumulator with one ferry wait of 5. -/
theorem C6_ferry_waits_and_average_witness :
    ferryExampleStats.FERRY_TRIPS_CNT = ((ferryExampleData.ferry_wait_durations.length : Int)) ∧
    ferryExampleStats.AVG_FERRY_WAIT_DURATION =
      (ferryExampleData.ferry_wait_durations.sum : ℚ) /
        ((ferryExampleData.ferry_wait_durations.length : Int) : ℚ) :=
  C6_ferry_waits_and_average.2 ferryExampleData ferryExampleStats
    make_simulation_statistics_ferryExample

/-- The seven lines of the spec's §8 scenario. -/
def scenarioLines : List (List Char) :=
  [String.toList "0 Foreman -1 Finished analysing the input file.;blocks=1,resources=1",
   String.toList "5 Worker 0 Finished mining a resource.;duration=5",
   String.toList "5 Worker 0 Finished mining a block of resources.;duration=0",
   String.toList "10 Lorry 0 Lorry has been filled.;duration=10",
   String.toList "20 Lorry 0 Lorry has arrived at the ferry.;duration=10",
   String.toList "25 Ferry -1 Ferry has departed from the origin shore.;duration=5",
   String.toList "30 Lorry 0 Lorry has arrived at the destination.;duration=5"]

/-- The accumulator reconstructed from the scenario lines. -/
def scenarioData : SimulationData :=
  { timestamp_begin := some 0, timestamp_last_event := some 30,
    blocks_mined_cnt := 1, workers_resources_mined := [(0, 1)],
    workers_work_duration := [(0, 5)], ferry_wait_durations := [5],
    lorries_load_duration := [10], lorries_transport_duration := [(0, 15)] }

/-- The statistics snapshot claimed for the scenario. -/
def scenarioStats : SimulationStatistics :=
  { DURATION := 30, BLOCKS_MINED_CNT := 1, AVG_BLOCK_MINE_DURATION := 5,
    RESOURCES_MINED_CNT := 1, AVG_RESOURCE_MINE_DURATION := 5,
    FERRY_TRIPS_CNT := 1, AVG_FERRY_WAIT_DURATION := 5,
    WORKERS_STATISTICS := [{ WORKER_ID := 0, RESOURCES_MINED_CNT := 1, WORK_DURATION := 5 }],
    LORRIES_STATISTICS := [{ LORRY_ID := 0, LOAD_TIME := 10, TRANSPORT_TIME := 20 }] }

set_option maxRecDepth 10000 in
/-- Claim C1: reconstructing from the spec's §8 scenario log and deriving
statistics yields exactly duration 30, one block (average 5), one resource
(average 5), one ferry trip (average wait 5), one worker record
(id 0, resources 1, work duration 5) and one lorry record
(id 0, load time 10, transport time 20). -/
theorem C1_scenario_statistics :
    runPipeline scenarioLines = Except.ok scenarioStats := by
  have hp : parse scenarioLines = Except.ok scenarioData := by rfl
  simp only [runPipeline, hp]
  norm_num [make_simulation_statistics, pySub, pyDiv, dictValues,
    make_workers_statistics, workerRows, dictGetE, dictGet?,
    make_lorries_statistics, lorryRows, sortByKey, insertByKey,
    scenarioData, scenarioStats]

/-- Claim C4: the three count divisions of the deriver are unguarded.  With
both timestamps set, a zero `blocks_mined_cnt` (even with resource events
recorded) makes the derivation fail with a division-by-zero error at the
block-average step; with nonzero blocks, a zero resources total fails at
the resource-average step; with both nonzero, an empty ferry-wait sequence
fails at the ferry-average step.  No statistics value is produced. -/
theorem C4_divisions_unguarded :
    (∀ d : SimulationData, d.timestamp_begin.isSome → d.timestamp_last_event.isSome →
      d.blocks_mined_cnt = 0 → d.workers_resources_mined ≠ [] →
      make_simulation_statistics d = Except.error PyError.zeroDivision) ∧
    (∀ d : SimulationData, d.timestamp_begin.isSome → d.timestamp_last_event.isSome →
      d.blocks_mined_cnt ≠ 0 → (dictValues d.workers_resources_mined).sum = 0 →
      make_simulation_statistics d = Except.error PyError.zeroDivision) ∧
    (∀ d : SimulationData, d.timestamp_begin.isSome → d.timestamp_last_event.isSome →
      d.blocks_mined_cnt ≠ 0 → (dictValues d.workers_resources_mined).sum ≠ 0 →
      d.ferry_wait_durations = [] →
      make_simulation_statistics d = Except.error PyError.zeroDivision) := by
  refine ⟨fun d h1 h2 h3 _ => ?_, fun d h1 h2 h3 h4 => ?_, fun d h1 h2 h3 h4 h5 => ?_⟩
  all_goals
    obtain ⟨tb, htb⟩ := Option.isSome_iff_exists.mp h1
    obtain ⟨tl, htl⟩ := Option.isSome_iff_exists.mp h2
  · simp [make_simulation_statistics, pySub, pyDiv, htb, htl, h3]
  · simp [make_simulation_statistics, pySub, pyDiv, htb, htl, h3, h4]
  · simp [make_simulation_statistics, pySub, pyDiv, htb, htl, h3, h4, h5]

/-- Claim C4, witness: the three failure modes on concrete accumulators
(zero blocks; zero resources total; no ferry trips). -/
theorem C4_divisions_unguarded_witness :
    make_simulation_statistics
        { timestamp_begin := some 0, timestamp_last_event := some 5,
          blocks_mined_cnt := 0, workers_resources_mined := [(0, 1)],
          workers_work_duration := [(0, 5)], ferry_wait_durations := [5],
          lorries_load_duration := [], lorries_transport_duration := [] } =
      Except.error PyError.zeroDivision ∧
    make_simulation_statistics
        { timestamp_begin := some 0, timestamp_last_event := some 5,
          blocks_mined_cnt := 1, workers_resources_mined := [],
          workers_work_duration := [], ferry_wait_durations := [5],
          lorries_load_duration := [], lorries_transport_duration := [] } =
      Except.error PyError.zeroDivision ∧
    make_simulation_statistics
        { timestamp_begin := some 0, timestamp_last_event := some 5,
          blocks_mined_cnt := 1, workers_resources_mined := [(0, 1)],
          workers_work_duration := [(0, 5)], ferry_wait_durations := [],
          lorries_load_duration := [], lorries_transport_duration := [] } =
      Except.error PyError.zeroDivision :=
  ⟨C4_divisions_unguarded.1 _ rfl rfl rfl (by simp),
   C4_divisions_unguarded.2.1 _ rfl rfl (by decide) rfl,
   C4_divisions_unguarded.2.2 _ rfl rfl (by decide) (by decide) rfl⟩

theorem lorryRows_missing_key (dict : List (Int × Int)) (avg : ℚ) :
    ∀ (lds : List Int) (i : Nat),
      (∃ j : Nat, j < lds.length ∧ dictGet? dict (Int.ofNat (i + j)) = none) →
      lorryRows dict avg i lds = Except.error PyError.keyError := by
  intro lds
  induction lds with
  | nil =>
    intro i h
    obtain ⟨j, hj, _⟩ := h
    exact absurd hj (by simp)
  | cons ld lds ih =>
    intro i h
    obtain ⟨j, hj, hnone⟩ := h
    cases hd : dictGet? dict (Int.ofNat i) with
    | none => simp only [lorryRows, dictGetE, hd]
    | some v =>
      cases j with
      | zero =>
        rw [Nat.add_zero] at hnone
        rw [hnone] at hd
        exact Option.noConfusion hd
      | succ j' =>
        have hrec : lorryRows dict avg (i + 1) lds = Except.error PyError.keyError := by
          refine ih (i + 1) ⟨j', ?_, ?_⟩
          · simpa using Nat.lt_of_succ_lt_succ hj
          · have : i + 1 + j' = i + (j' + 1) := by omega
            rw [this]
            exact hnone
        simp only [lorryRows, dictGetE, hd, hrec]

/-- Claim C9: when some 0-based index of `lorries_load_duration` has no
entry in `lorries_transport_duration`, the per-lorry statistics step fails
with a `KeyError` (it never defaults the transport time to 0); the lookup
is defined only when every load index has a transport entry. -/
theorem C9_lorry_index_key_error (data : SimulationData) (avg : ℚ)
    (h : ∃ i : Nat, i < data.lorries_load_duration.length ∧
      dictGet? data.lorries_transport_duration (Int.ofNat i) = none) :
    make_lorries_statistics data avg = Except.error PyError.keyError := by
  have hrows : lorryRows data.lorries_transport_duration avg 0
      data.lorries_load_duration = Except.error PyError.keyError := by
    refine lorryRows_missing_key _ _ _ 0 ?_
    obtain ⟨i, hi, hnone⟩ := h
    exact ⟨i, hi, by simpa using hnone⟩
  simp [make_lorries_statistics, hrows]

/-- Claim C9, witness: one load duration and an empty transport mapping. -/
theorem C9_lorry_index_key_error_witness :
    make_lorries_statistics
        { timestamp_begin := some 0, timestamp_last_event := some 5,
          blocks_mined_cnt := 0, workers_resources_mined := [],
          workers_work_duration := [], ferry_wait_durations := [],
          lorries_load_duration := [10], lorries_transport_duration := [] } 0 =
      Except.error PyError.keyError :=
  C9_lorry_index_key_error _ 0 ⟨0, by decide, rfl⟩

/-- Claim C10: a log with a valid header line and no general lines parses
successfully into an accumulator whose `timestamp_last_event` is still
unset, so the derivation fails at the `timestamp_last_event -
timestamp_begin` subtraction and the pipeline never produces statistics
for a header-only log. -/
theorem C10_header_only_no_statistics (line : List Char) (ts b r : Int)
    (h : matchForeman line = some (ts, b, r)) :
    parse [line] = Except.ok (SimulationData.empty.set_timestamp_begin ts) ∧
    (SimulationData.empty.set_timestamp_begin ts).timestamp_last_event = none ∧
    make_simulation_statistics (SimulationData.empty.set_timestamp_begin ts) =
      Except.error PyError.typeError ∧
    runPipeline [line] = Except.error PyError.typeError := by
  have hparse : parse [line] =
      Except.ok (SimulationData.empty.set_timestamp_begin ts) := by
    simp [parse, parse_foreman_log, h, parse_general_logs]
  have hstats : make_simulation_statistics
      (SimulationData.empty.set_timestamp_begin ts) =
      Except.error PyError.typeError := by
    simp [make_simulation_statistics, pySub, SimulationData.empty,
      SimulationData.set_timestamp_begin]
  exact ⟨hparse, rfl, hstats, by simp [runPipeline, hparse, hstats]⟩

/-- The header line of the spec's §8 scenario, reused for header-only and
abort witnesses. -/
def headerLine : List Char :=
  String.toList "0 Foreman -1 Finished analysing the input file.;blocks=1,resources=1"

/-- Claim C10, witness: the concrete scenario header alone. -/
theorem C10_header_only_no_statistics_witness :
    parse [headerLine] = Except.ok (SimulationData.empty.set_timestamp_begin 0) ∧
    (SimulationData.empty.set_timestamp_begin 0).timestamp_last_event = none ∧
    make_simulation_statistics (SimulationData.empty.set_timestamp_begin 0) =
      Except.error PyError.typeError ∧
    runPipeline [headerLine] = Except.error PyError.typeError :=
  C10_header_only_no_statistics headerLine 0 1 1 (by rfl)

theorem parse_general_logs_good_then_bad
    {bad : List Char} (hbad : matchGeneral bad = none)
    (rest : List (List Char)) :
    ∀ (good : List (List Char)) (es : List GeneralLog),
      List.Forall₂ (fun l e => matchGeneral l = some e) good es →
      ∀ d : SimulationData,
        parse_general_logs d (good ++ bad :: rest) =
          (es.foldl handle_log d,
           some (PyError.logFormat MESSAGE_INVALID_LOG_FORMAT)) := by
  intro good
  induction good with
  | nil =>
    intro es hgood d
    cases hgood
    simp [parse_general_logs, hbad]
  | cons l good ih =>
    intro es hgood d
    cases hgood with
    | cons hle hrest =>
      rename_i e es'
      simp only [List.cons_append, List.foldl_cons]
      simp only [parse_general_logs, hle]
      exact ih es' hrest (handle_log d e)

/-- Claim C3: any line failing its expected pattern (header form for the
first line, general form for a later one) aborts the whole parse with the
fixed invalid-log-format error, no statistics are produced, and the
accumulator at the point of abort still holds every mutation committed by
the earlier well-formed lines. -/
theorem C3_malformed_line_aborts :
    (∀ (h : List Char) (ls : List (List Char)),
      matchForeman h = none →
      parse (h :: ls) =
        Except.error (PyError.logFormat MESSAGE_INVALID_LOG_FORMAT) ∧
      runPipeline (h :: ls) =
        Except.error (PyError.logFormat MESSAGE_INVALID_LOG_FORMAT)) ∧
    (∀ (h : List Char) (ts b r : Int) (good : List (List Char))
        (es : List GeneralLog) (bad : List Char) (rest : List (List Char)),
      matchForeman h = some (ts, b, r) →
      List.Forall₂ (fun l e => matchGeneral l = some e) good es →
      matchGeneral bad = none →
      parse_general_logs (SimulationData.empty.set_timestamp_begin ts)
          (good ++ bad :: rest) =
        (es.foldl handle_log (SimulationData.empty.set_timestamp_begin ts),
         some (PyError.logFormat MESSAGE_INVALID_LOG_FORMAT)) ∧
      parse (h :: (good ++ bad :: rest)) =
        Except.error (PyError.logFormat MESSAGE_INVALID_LOG_FORMAT) ∧
      runPipeline (h :: (good ++ bad :: rest)) =
        Except.error (PyError.logFormat MESSAGE_INVALID_LOG_FORMAT)) := by
  constructor
  · intro h ls hh
    have hp : parse (h :: ls) =
        Except.error (PyError.logFormat MESSAGE_INVALID_LOG_FORMAT) := by
      simp [parse, parse_foreman_log, hh]
    exact ⟨hp, by simp [runPipeline, hp]⟩
  · intro h ts b r good es bad rest hh hgood hbad
    have hgl := parse_general_logs_good_then_bad hbad rest good es hgood
      (SimulationData.empty.set_timestamp_begin ts)
    have hp : parse (h :: (good ++ bad :: rest)) =
        Except.error (PyError.logFormat MESSAGE_INVALID_LOG_FORMAT) := by
      simp [parse, parse_foreman_log, hh, hgl]
    exact ⟨hgl, hp, by simp [runPipeline, hp]⟩

/-- A well-formed general line and its parsed event, for the abort
witness. -/
def goodLine : List Char :=
  String.toList "5 Worker 0 Finished mining a resource.;duration=5"

/-- The event `goodLine` parses to. -/
def goodEvent : GeneralLog :=
  { timestamp := 5, role := "Worker", threadId := 0,
    message := "Finished mining a resource.", duration := 5 }

/-- A line matching neither pattern. -/
def badLine : List Char := String.toList "garbage"

/-- Claim C3, witness: header, one good general line, then a malformed
line; the abort keeps the good line's mutations. -/
theorem C3_malformed_line_aborts_witness :
    parse_general_logs (SimulationData.empty.set_timestamp_begin 0)
        ([goodLine] ++ badLine :: []) =
      ([goodEvent].foldl handle_log (SimulationData.empty.set_timestamp_begin 0),
       some (PyError.logFormat MESSAGE_INVALID_LOG_FORMAT)) ∧
    parse (headerLine :: ([goodLine] ++ badLine :: [])) =
      Except.error (PyError.logFormat MESSAGE_INVALID_LOG_FORMAT) ∧
    runPipeline (headerLine :: ([goodLine] ++ badLine :: [])) =
      Except.error (PyError.logFormat MESSAGE_INVALID_LOG_FORMAT) :=
  C3_malformed_line_aborts.2 headerLine 0 1 1 [goodLine] [goodEvent] badLine []
    (by rfl) (List.Forall₂.cons (by rfl) List.Forall₂.nil) (by rfl)

theorem takeDropWhile_append {p : Char → Bool} {s : List Char} {c : Char}
    {r : List Char} (t : List Char) (h : s.dropWhile p = c :: r) :
    (s ++ t).takeWhile p = s.takeWhile p ∧ (s ++ t).dropWhile p = c :: (r ++ t) := by
  induction s with
  | nil => simp at h
  | cons a s ih =>
    rw [List.dropWhile_cons] at h
    by_cases hpa : p a
    · rw [if_pos hpa] at h
      obtain ⟨h1, h2⟩ := ih h
      simp [List.cons_append, List.takeWhile_cons, List.dropWhile_cons, hpa, h1, h2]
    · rw [if_neg hpa] at h
      injection h with hc hr
      subst hc
      subst hr
      simp [List.cons_append, List.takeWhile_cons, List.dropWhile_cons, hpa]

theorem munch_some_append {p : Char → Bool} {s ds : List Char} {c : Char}
    {r : List Char} (t : List Char) (h : munch p s = some (ds, c :: r)) :
    munch p (s ++ t) = some (ds, c :: (r ++ t)) := by
  unfold munch at h
  split at h
  next => exact Option.noConfusion h
  next hcond =>
    simp only [Option.some.injEq, Prod.mk.injEq] at h
    obtain ⟨h1, h2⟩ := h
    obtain ⟨ht, hd⟩ := takeDropWhile_append t h2
    unfold munch
    rw [ht, hd, if_neg hcond, h1]

theorem munch_isSome_append {p : Char → Bool} {s : List Char} (t : List Char)
    (h : (munch p s).isSome) : (munch p (s ++ t)).isSome := by
  cases s with
  | nil => simp [munch] at h
  | cons a s =>
    by_cases hpa : p a
    · simp [munch, List.takeWhile_cons, hpa]
    · simp [munch, List.takeWhile_cons, hpa] at h

theorem munchNat_some_append {s : List Char} {n : Nat} {c : Char}
    {r : List Char} (t : List Char) (h : munchNat s = some (n, c :: r)) :
    munchNat (s ++ t) = some (n, c :: (r ++ t)) := by
  unfold munchNat at h ⊢
  cases hm : munch Char.isDigit s with
  | none => rw [hm] at h; exact Option.noConfusion h
  | some pr =>
    obtain ⟨ds, rest⟩ := pr
    rw [hm] at h
    simp only [Option.map_some', Option.some.injEq, Prod.mk.injEq] at h
    obtain ⟨h1, h2⟩ := h
    subst h2
    rw [munch_some_append t hm]
    simp [h1]

theorem munchNat_isSome_append {s : List Char} (t : List Char)
    (h : (munchNat s).isSome) : (munchNat (s ++ t)).isSome := by
  unfold munchNat at h ⊢
  have hm : (munch Char.isDigit s).isSome := by
    cases hm : munch Char.isDigit s with
    | none => rw [hm] at h; simp at h
    | some pr => rfl
  obtain ⟨pr, hpr⟩ := Option.isSome_iff_exists.mp (munch_isSome_append t hm)
  rw [hpr]
  rfl

theorem isPrefixOf_append_true {lit s : List Char} (t : List Char)
    (h : lit.isPrefixOf s = true) : lit.isPrefixOf (s ++ t) = true := by
  induction lit generalizing s with
  | nil => simp
  | cons a lit ih =>
    cases s with
    | nil => simp [List.isPrefixOf] at h
    | cons b s =>
      simp only [List.cons_append, List.isPrefixOf, Bool.and_eq_true] at h ⊢
      exact ⟨h.1, ih h.2⟩

theorem isPrefixOf_length_le {lit s : List Char}
    (h : lit.isPrefixOf s = true) : lit.length ≤ s.length := by
  induction lit generalizing s with
  | nil => simp
  | cons a lit ih =>
    cases s with
    | nil => simp [List.isPrefixOf] at h
    | cons b s =>
      simp only [List.isPrefixOf, Bool.and_eq_true] at h
      simpa using ih h.2

theorem expect_some_append {lit s r : List Char} (t : List Char)
    (h : expect lit s = some r) : expect lit (s ++ t) = some (r ++ t) := by
  unfold expect at h ⊢
  split at h
  next hcond =>
    rw [if_pos (isPrefixOf_append_true t hcond)]
    rw [List.drop_append_of_le_length (isPrefixOf_length_le hcond)]
    simp only [Option.some.injEq] at h
    rw [h]
  next => exact Option.noConfusion h

theorem expect_single {c : Char} {s r : List Char}
    (h : expect [c] s = some r) : s = c :: r := by
  cases s with
  | nil =>
    unfold expect at h
    simp [List.isPrefixOf] at h
  | cons b s =>
    unfold expect at h
    by_cases hcb : c = b
    · subst hcb
      simp [List.isPrefixOf] at h
      rw [h]
    · simp [List.isPrefixOf, hcb] at h

theorem munchInt_some_append {s : List Char} {v : Int} {c : Char}
    {r : List Char} (t : List Char) (h : munchInt s = some (v, c :: r)) :
    munchInt (s ++ t) = some (v, c :: (r ++ t)) := by
  unfold munchInt at h ⊢
  cases s with
  | nil => simp [munchNat, munch] at h
  | cons a s' =>
    by_cases ha : a = '-'
    · subst ha
      rw [if_pos (show (('-' :: s') : List Char).head? = some '-' from rfl)] at h
      rw [List.cons_append,
        if_pos (show (('-' :: (s' ++ t)) : List Char).head? = some '-' from rfl),
        List.tail_cons]
      rw [List.tail_cons] at h
      cases hm : munchNat s' with
      | none => rw [hm] at h; simp at h
      | some pr =>
        obtain ⟨n, rest⟩ := pr
        rw [hm] at h
        simp only [Option.map_some', Option.some.injEq, Prod.mk.injEq] at h
        obtain ⟨hv, hrest⟩ := h
        subst hrest
        rw [munchNat_some_append t hm]
        simp only [Option.map_some', Option.some.injEq, Prod.mk.injEq]
        exact ⟨hv, trivial⟩
    · have hc : ((a :: s') : List Char).head? ≠ some '-' := by simp [ha]
      have hc2 : (((a :: s') ++ t) : List Char).head? ≠ some '-' := by simp [ha]
      rw [if_neg hc] at h
      rw [if_neg hc2]
      cases hm : munchNat (a :: s') with
      | none => rw [hm] at h; simp at h
      | some pr =>
        obtain ⟨n, rest⟩ := pr
        rw [hm] at h
        simp only [Option.map_some', Option.some.injEq, Prod.mk.injEq] at h
        obtain ⟨hv, hrest⟩ := h
        subst hrest
        rw [munchNat_some_append t hm]
        simp only [Option.map_some', Option.some.injEq, Prod.mk.injEq]
        exact ⟨hv, trivial⟩

theorem durTail_isSome_append {q : List Char} (t : List Char)
    (h : (durTail q).isSome) : (durTail (q ++ t)).isSome := by
  unfold durTail at h ⊢
  cases he : expect (String.toList ";duration=") q with
  | none => rw [he] at h; simp at h
  | some r =>
    rw [he] at h
    rw [expect_some_append t he]
    simp only at h ⊢
    have hm : (munchNat r).isSome := by
      cases hm : munchNat r with
      | none => rw [hm] at h; simp at h
      | some pr => rfl
    obtain ⟨pr, hpr⟩ := Option.isSome_iff_exists.mp (munchNat_isSome_append t hm)
    rw [hpr]
    rfl

theorem nil_mem_splitsAll (s : List Char) : ([], s) ∈ splitsAll s := by
  cases s <;> simp [splitsAll]

theorem mem_splitsAll_append {p q s : List Char} (t : List Char)
    (h : (p, q) ∈ splitsAll s) : (p, q ++ t) ∈ splitsAll (s ++ t) := by
  induction s generalizing p with
  | nil =>
    simp only [splitsAll, List.mem_singleton, Prod.mk.injEq] at h
    obtain ⟨rfl, rfl⟩ := h
    simpa using nil_mem_splitsAll t
  | cons c s ih =>
    simp only [splitsAll, List.mem_cons, Prod.mk.injEq, List.mem_map] at h
    rcases h with ⟨rfl, rfl⟩ | ⟨pr, hpr, heq⟩
    · simp [splitsAll]
    · obtain ⟨h1, h2⟩ := heq
      subst h1
      subst h2
      simp only [List.cons_append, splitsAll, List.mem_cons, List.mem_map]
      exact Or.inr ⟨(pr.1, pr.2 ++ t), ih hpr, rfl⟩

theorem validSplit_append {p q : List Char} (t : List Char)
    (h : validSplit p q = true) : validSplit p (q ++ t) = true := by
  unfold validSplit at h ⊢
  simp only [Bool.and_eq_true] at h ⊢
  exact ⟨h.1, durTail_isSome_append t h.2⟩

theorem getLast?_some_mem {α : Type} {l : List α} {x : α}
    (h : l.getLast? = some x) : x ∈ l := by
  obtain ⟨hl, hx⟩ := List.mem_getLast?_eq_getLast (Option.mem_def.mpr h)
  rw [hx]
  exact List.getLast_mem hl

theorem msgSplit_mem_valid {s p q : List Char}
    (h : msgSplit s = some (p, q)) :
    (p, q) ∈ splitsAll s ∧ validSplit p q = true := by
  unfold msgSplit at h
  have hmem := getLast?_some_mem h
  have hf := List.mem_filter.mp hmem
  exact ⟨hf.1, hf.2⟩

theorem msgSplit_isSome_append {s p q : List Char} (t : List Char)
    (h : msgSplit s = some (p, q)) : (msgSplit (s ++ t)).isSome := by
  obtain ⟨hmem, hval⟩ := msgSplit_mem_valid h
  have hmem' : (p, q ++ t) ∈
      (splitsAll (s ++ t)).filter (fun pr => validSplit pr.1 pr.2) :=
    List.mem_filter.mpr ⟨mem_splitsAll_append t hmem, validSplit_append t hval⟩
  unfold msgSplit
  exact List.getLast?_isSome.mpr (List.ne_nil_of_mem hmem')

theorem msgSplit_durTail_isSome {s p q : List Char}
    (h : msgSplit s = some (p, q)) : (durTail q).isSome := by
  obtain ⟨_, hval⟩ := msgSplit_mem_valid h
  unfold validSplit at hval
  simp only [Bool.and_eq_true] at hval
  exact hval.2

theorem expect_shape {lit s r : List Char} (hne : lit ≠ [])
    (h : expect lit s = some r) : ∃ c s', s = c :: s' := by
  cases s with
  | nil =>
    cases lit with
    | nil => exact absurd rfl hne
    | cons a lit' =>
      unfold expect at h
      simp [List.isPrefixOf] at h
  | cons b s' => exact ⟨b, s', rfl⟩

theorem matchGeneral_append_isSome {s : List Char} (t : List Char)
    {e : GeneralLog} (h : matchGeneral s = some e) :
    (matchGeneral (s ++ t)).isSome := by
  unfold matchGeneral at h
  split at h
  next => exact Option.noConfusion h
  next ts r1 h1 =>
    split at h
    next => exact Option.noConfusion h
    next r2 h2 =>
      split at h
      next => exact Option.noConfusion h
      next role r3 h3 =>
        split at h
        next => exact Option.noConfusion h
        next r4 h4 =>
          split at h
          next => exact Option.noConfusion h
          next tid r5 h5 =>
            split at h
            next => exact Option.noConfusion h
            next r6 h6 =>
              split at h
              next => exact Option.noConfusion h
              next p q h7 =>
                split at h
                next => exact Option.noConfusion h
                next dur h8 =>
                  obtain rfl : r1 = ' ' :: r2 := expect_single h2
                  obtain rfl : r3 = ' ' :: r4 := expect_single h4
                  obtain rfl : r5 = ' ' :: r6 := expect_single h6
                  have b1 := munchNat_some_append t h1
                  have b2 := expect_some_append t h2
                  have b3 := munch_some_append t h3
                  have b4 := expect_some_append t h4
                  have b5 := munchInt_some_append t h5
                  have b6 := expect_some_append t h6
                  obtain ⟨pq, h7'⟩ :=
                    Option.isSome_iff_exists.mp (msgSplit_isSome_append t h7)
                  obtain ⟨mp, mq⟩ := pq
                  obtain ⟨dur', h8'⟩ :=
                    Option.isSome_iff_exists.mp (msgSplit_durTail_isSome h7')
                  simp only [List.cons_append] at b1 b2 b3 b4 b5 b6
                  unfold matchGeneral
                  simp only [b1, b2, b3, b4, b5, b6, h7', h8', Option.isSome_some]

theorem matchForeman_append_isSome {s : List Char} (t : List Char)
    {f : Int × Int × Int} (h : matchForeman s = some f) :
    (matchForeman (s ++ t)).isSome := by
  unfold matchForeman at h
  split at h
  next => exact Option.noConfusion h
  next ts r1 h1 =>
    split at h
    next => exact Option.noConfusion h
    next r2 h2 =>
      split at h
      next => exact Option.noConfusion h
      next c r3 =>
        split at h
        next => exact Option.noConfusion h
        next hnl =>
          split at h
          next => exact Option.noConfusion h
          next r4 h4 =>
            split at h
            next => exact Option.noConfusion h
            next b r5 h5 =>
              split at h
              next => exact Option.noConfusion h
              next r6 h6 =>
                split at h
                next => exact Option.noConfusion h
                next rr r7 h7 =>
                  obtain ⟨c1, r1', rfl⟩ := expect_shape (by decide) h2
                  obtain ⟨c3, r5', rfl⟩ := expect_shape (by decide) h6
                  have b1 := munchNat_some_append t h1
                  have b2 := expect_some_append t h2
                  have b4 := expect_some_append t h4
                  have b5 := munchNat_some_append t h5
                  have b6 := expect_some_append t h6
                  have b7 : (munchNat (r6 ++ t)).isSome :=
                    munchNat_isSome_append t (by rw [h7]; rfl)
                  obtain ⟨pr7, hb7⟩ := Option.isSome_iff_exists.mp b7
                  obtain ⟨rv, r7'⟩ := pr7
                  simp only [List.cons_append] at b1 b2 b4 b5 b6
                  unfold matchForeman
                  simp only [b1, b2, b4, b5, b6, hb7, if_neg hnl,
                    Option.isSome_some]

/-- Claim C5 (amended): recognition is anchored at the start of the line
and not at its end: every line whose prefix is recognized (header or
general form) is accepted whatever trailing content follows; but matching
is greedy over the whole line, so the extracted fields may extend into the
trailing content and differ from those of the shorter prefix alone. -/
theorem C5_start_anchored_not_end_anchored :
    (∀ (s t : List Char) (f : Int × Int × Int),
      matchForeman s = some f → (matchForeman (s ++ t)).isSome) ∧
    (∀ (s t : List Char) (e : GeneralLog),
      matchGeneral s = some e → (matchGeneral (s ++ t)).isSome) :=
  ⟨fun _ t _ h => matchForeman_append_isSome t h,
   fun _ t _ h => matchGeneral_append_isSome t h⟩

/-- Claim C5, counterexample to the claim as stated: the scenario header
matches with fields (0, 1, 1), but appending the single character `2`
yields fields (0, 1, 12) — the trailing content is absorbed into the
greedy `(\d+)` group instead of being ignored, so the accepted line does
not extract the same fields as its matching prefix. -/
theorem C5_trailing_content_changes_fields :
    matchForeman headerLine = some (0, 1, 1) ∧
    matchForeman (headerLine ++ ['2']) = some (0, 1, 12) ∧
    ¬ matchForeman (headerLine ++ ['2']) = some (0, 1, 1) := by
  refine ⟨by rfl, by rfl, fun hc => ?_⟩
  have h12 : (some (((0 : Int), (1 : Int), (12 : Int))) :
      Option (Int × Int × Int)) = some (0, 1, 1) := by
    rw [← hc]
    rfl
  simp at h12

/-- Claim C5 (amended), witness: the header and a general line each
accepted with trailing content appended. -/
theorem C5_start_anchored_not_end_anchored_witness :
    (matchForeman (headerLine ++ String.toList " extra")).isSome ∧
    (matchGeneral (goodLine ++ String.toList " extra")).isSome :=
  ⟨C5_start_anchored_not_end_anchored.1 headerLine (String.toList " extra")
      (0, 1, 1) (by rfl),
   C5_start_anchored_not_end_anchored.2 goodLine (String.toList " extra")
      goodEvent (by rfl)⟩



